import Mathlib

/-!
Verification development for the data-reconciliation and entity-hydration
layer of the BANDOSOVN historical-map client (src/services/apiService.ts).

The TypeScript service is shallowly embedded: backend JSON values are the
inductive `JVal`; JS objects are association lists; the host runtime's
string/number coercion helpers that the service calls but does not define
(`JSON.parse`, `parseInt`, `parseFloat`, string conversion of non-string
values, numeric conversion of strings) are collected in a `JsEnv` record of
abstract functions, over which all theorems are universally quantified.
Where exact JS semantics matter for a claim (strict equality with string
literals, truthiness, `String(...)` of a string, `Number(...)` of a numeric
literal) they are modelled concretely.  Case folding is modelled by
`String.toLower` (ASCII case mapping), which agrees with JS `toLowerCase`
on every string exercised here; string `length` is modelled as code-point
count, which agrees with the UTF-16 unit count on all BMP text used by the
service.
-/

/-- A JSON-like runtime value.  `null` covers JS `null`; JS `undefined` is
represented as `Option.none` at use sites (absent object property). -/
inductive JVal where
  | null : JVal
  | bool : Bool → JVal
  | num : ℚ → JVal
  | str : String → JVal
  | arr : List JVal → JVal
  | obj : List (String × JVal) → JVal

/-- JS truthiness of a value.  Our numbers are rationals, so the only falsy
number is 0 (the service can never produce `NaN` in a stored coordinate,
because every `Number(...)` conversion is guarded by `|| 0`). -/
def truthy : JVal → Bool
  | .null => false
  | .bool b => b
  | .num q => !(q == 0)
  | .str s => !(s == "")
  | .arr _ => true
  | .obj _ => true

/-- Truthiness of a possibly-absent value (`undefined` is falsy). -/
def truthyOpt : Option JVal → Bool
  | some v => truthy v
  | none => false

/-- Strict equality (`===`) of a possibly-absent value with a string
literal: true exactly when the value is that string. -/
def optIsStr (o : Option JVal) (s : String) : Bool :=
  match o with
  | some (.str t) => t == s
  | _ => false

/-- JS property read `v[k]`: defined only on objects, `undefined` (none)
otherwise.  Duplicate keys (possible in parsed JSON) resolve to the last
occurrence, as in JS. -/
def objGet (v : JVal) (k : String) : Option JVal :=
  match v with
  | .obj fs => (fs.reverse.find? (fun p => p.1 == k)).map (fun p => p.2)
  | _ => none

/-- src/services/apiService.ts `getProp`: first candidate key whose value is
present, not null and not the empty string. -/
def getProp (v : JVal) : List String → Option JVal
  | [] => none
  | k :: ks =>
    match objGet v k with
    | some w =>
      if w matches .null then getProp v ks
      else if w matches .str "" then getProp v ks
      else some w
    | none => getProp v ks

/-- Host-runtime coercion functions the service relies on but does not
implement.  All theorems are universally quantified over this record. -/
structure JsEnv where
  /-- `String(v)` for a non-string primitive or composite value. -/
  showVal : JVal → String
  /-- `Number(s)` for a string (`none` encodes `NaN`). -/
  strToNum : String → Option ℚ
  /-- `parseInt(s, 10)` (`none` encodes `NaN`). -/
  strParseInt : String → Option Int
  /-- `JSON.parse(s)` (`none` encodes a thrown `SyntaxError`). -/
  jsonParse : String → Option JVal
  /-- `parseFloat(s)` (`none` encodes `NaN`). -/
  parseFloatS : String → Option ℚ

/-- `String(v)`: the identity on strings, host coercion otherwise. -/
def jsToString (env : JsEnv) : JVal → String
  | .str s => s
  | v => env.showVal v

/-- `String(v)` where `v` may be `undefined` (JS renders `"undefined"`). -/
def jsToStringOpt (env : JsEnv) : Option JVal → String
  | some v => jsToString env v
  | none => "undefined"

/-- `Number(v)` (`none` encodes `NaN`).  Numeric, null and boolean inputs
follow the ECMAScript conversion exactly; strings go through the
environment; composite values (whose conversion detours through
`toPrimitive` and is never exercised by the service's data) are abstracted
as `NaN`. -/
def jsNumber (env : JsEnv) : JVal → Option ℚ
  | .num q => some q
  | .null => some 0
  | .bool b => some (if b then 1 else 0)
  | .str s => env.strToNum s
  | .arr _ => none
  | .obj _ => none

/-- `Number(getProp(...)) || 0`: absent (`undefined → NaN`) and `NaN` both
collapse to 0, and 0 stays 0. -/
def numOr0 (env : JsEnv) (o : Option JVal) : ℚ :=
  match o with
  | some v => (jsNumber env v).getD 0
  | none => 0

/-- `getProp(...) || d`: the resolved value if truthy, else the default. -/
def jsOr (o : Option JVal) (d : JVal) : JVal :=
  match o with
  | some v => if truthy v then v else d
  | none => d

/-! ### Text normalizer (`cleanText`, lines 47-55)

`str.replace(/\[\s*\d+(?:[\s,;-]*\d+)*\s*\]/g, '').replace(/\s+/g, ' ').trim()`

The citation regex is deterministic (its character classes are pairwise
disjoint where backtracking could arise), so it is embedded as a direct
scanner over the character list. -/

/-- JS `\s`: the WhiteSpace and LineTerminator productions. -/
def isWs (c : Char) : Bool :=
  c == ' ' || c == '\t' || c == '\n' || c == '\r' || c == '\x0b' || c == '\x0c' ||
  c == '\u00a0' || c == '\u1680' || ('\u2000' ≤ c && c ≤ '\u200a') ||
  c == '\u2028' || c == '\u2029' || c == '\u202f' || c == '\u205f' ||
  c == '\u3000' || c == '\ufeff'

/-- The separator class `[\s,;-]` of the citation regex. -/
def isSep (c : Char) : Bool :=
  isWs c || c == ',' || c == ';' || c == '-'

/-- Scanner for the citation-regex tail after `\[ \s* \d+`: accepts
`(?:[\s,;-]*\d+)* \s* \]` and returns the remaining characters.  `ok`
records whether every separator since the last digit was whitespace (so
that the final run can be absorbed by the trailing `\s*`). -/
def citScan : List Char → Bool → Option (List Char)
  | [], _ => none
  | c :: cs, ok =>
    if c == ']' then (if ok then some cs else none)
    else if c.isDigit then citScan cs true
    else if isSep c then citScan cs (ok && isWs c)
    else none

/-- Try to match the citation regex at the start of the list; on success
return the characters after the match. -/
def matchCitation : List Char → Option (List Char)
  | '[' :: rest =>
    match rest.dropWhile isWs with
    | c :: cs => if c.isDigit then citScan (cs.dropWhile Char.isDigit) true else none
    | [] => none
  | _ => none

/-- Global-replace scan with explicit fuel (one unit per position or match;
the initial length is always enough fuel because a match consumes at least
two characters: see `removeCitationsAux_fuel`). -/
def removeCitationsAux : Nat → List Char → List Char
  | 0, l => l
  | _ + 1, [] => []
  | fuel + 1, c :: cs =>
    match matchCitation (c :: cs) with
    | some rest => removeCitationsAux fuel rest
    | none => c :: removeCitationsAux fuel cs

/-- `.replace(/\[\s*\d+(?:[\s,;-]*\d+)*\s*\]/g, '')`. -/
def removeCitations (l : List Char) : List Char :=
  removeCitationsAux l.length l

/-- `.replace(/\s+/g, ' ')`: collapse each whitespace run to one space.
The flag says whether the previous character was part of a run. -/
def collapseWsAux : Bool → List Char → List Char
  | _, [] => []
  | prevWs, c :: cs =>
    if isWs c then
      if prevWs then collapseWsAux true cs
      else ' ' :: collapseWsAux true cs
    else c :: collapseWsAux false cs

def collapseWs (l : List Char) : List Char :=
  collapseWsAux false l

/-- Drop trailing whitespace. -/
def dropTrailingWs : List Char → List Char
  | [] => []
  | c :: cs =>
    match dropTrailingWs cs with
    | [] => if isWs c then [] else [c]
    | ds => c :: ds

/-- JS `String.prototype.trim`. -/
def trimChars (l : List Char) : List Char :=
  dropTrailingWs (l.dropWhile isWs)

/-- `cleanText` restricted to string input (the falsy guard returns `''`
for the empty string; `String(s)` is the identity). -/
def cleanTextStr (s : String) : String :=
  if s == "" then ""
  else String.mk (trimChars (collapseWs (removeCitations s.data)))

/-- `cleanText` on a resolved raw value (absent and falsy values give `''`,
other values are coerced by `String(...)` first). -/
def cleanText (env : JsEnv) (o : Option JVal) : String :=
  match o with
  | some v => if truthy v then cleanTextStr (jsToString env v) else ""
  | none => ""

/-! ### Kernel-computable string helpers (models of the JS string methods) -/

/-- JS `toLowerCase`, restricted to ASCII case mapping (`Char.toLower`);
it agrees with the full Unicode mapping on every string the service
matches (ASCII capitals plus already-lowercase Vietnamese letters). -/
def strToLower (s : String) : String :=
  String.mk (s.data.map Char.toLower)

/-- JS `String.prototype.trim` (strips the `\s` class from both ends). -/
def strTrim (s : String) : String :=
  String.mk (trimChars s.data)

/-- `pat` is a prefix of the second list. -/
def listIsPrefix : List Char → List Char → Bool
  | [], _ => true
  | _ :: _, [] => false
  | a :: as, b :: bs => a == b && listIsPrefix as bs

/-- `pat` occurs consecutively somewhere in the list. -/
def listHasInfix (pat : List Char) : List Char → Bool
  | [] => pat.isEmpty
  | c :: t => listIsPrefix pat (c :: t) || listHasInfix pat t

/-- JS `hay.includes(pat)`. -/
def strIncludes (hay pat : String) : Bool :=
  listHasInfix pat.data hay.data

/-- JS `split(',')` (never empty: a string without commas yields itself). -/
def splitCommaAux (cur : List Char) : List Char → List (List Char)
  | [] => [cur.reverse]
  | c :: cs => if c == ',' then cur.reverse :: splitCommaAux [] cs else splitCommaAux (c :: cur) cs

def strSplitComma (s : String) : List String :=
  (splitCommaAux [] s.data).map String.mk

/-- JS `Array.prototype.join(' ')`. -/
def strJoinSpace : List String → String
  | [] => ""
  | [s] => s
  | s :: rest => s ++ " " ++ strJoinSpace rest

/-- `===` of a value against a string literal. -/
def jvalIsStr (v : JVal) (s : String) : Bool :=
  match v with
  | .str t => t == s
  | _ => false

/-! ### Response unwrapper (`extractData`, lines 125-155) -/

/-- Branch 4 of `extractData`: a single non-array object with a recognized
identifier or any key at all becomes a one-element list. -/
def extractSingleObj (resp : JVal) : List JVal :=
  match resp with
  | .obj fs =>
    if truthyOpt (objGet resp "site_id") || truthyOpt (objGet resp "event_id") ||
       truthyOpt (objGet resp "person_id") || !fs.isEmpty then [resp] else []
  | _ => []

/-- `extractData` with explicit recursion fuel for the proxy-envelope
branch (`response.contents`, which recurses on the unwrapped payload).
Every branch the claims exercise is decided at the first level, so any
positive fuel is exact for them. -/
def extractDataAux (env : JsEnv) : Nat → JVal → List JVal
  | 0, _ => []
  | fuel + 1, resp =>
    if !truthy resp then []
    else
      match objGet resp "data" with
      | some (.arr xs) => xs
      | _ =>
        match resp with
        | .arr xs => xs
        | _ =>
          match objGet resp "contents" with
          | some c =>
            if truthy c then
              match c with
              | .str s =>
                match env.jsonParse s with
                | some inner => extractDataAux env fuel inner
                | none => []
              | _ => extractDataAux env fuel c
            else extractSingleObj resp
          | none => extractSingleObj resp

/-- The response unwrapper.  The fixed fuel 8 bounds only the depth of
nested proxy envelopes (realistically at most one per proxy hop). -/
def extractData (env : JsEnv) (resp : JVal) : List JVal :=
  extractDataAux env 8 resp

/-! ### Remote fetcher (`promiseAny` lines 63-77, `fetchFromApi` 97-123) -/

/-- `promiseAny` applied to the strategies' settled outcomes, listed in
completion order: the first fulfilled outcome wins; with no promises or
all rejections, the combined rejection is raised. -/
def promiseAny (results : List (Except String JVal)) : Except String JVal :=
  if results.isEmpty then .error "No promises"
  else
    match results.find? (fun r => r matches .ok _) with
    | some r => r
    | none => .error "All promises rejected"

/-- `fetchFromApi`: races the direct fetch and the three proxy strategies
(each proxy strategy unwraps its envelope before settling) and catches any
combined rejection, resolving with an empty array instead. -/
def fetchFromApi (results : List (Except String JVal)) : Except String JVal :=
  match promiseAny results with
  | .ok v => .ok v
  | .error _ => .ok (.arr [])

/-! ### Typed entities (src/types.ts as consumed by the service) -/

/-- A mapped Site.  `site_name` stores the JS value coerced to a string
(the service treats it as a string: `.toLowerCase()`, `.length`). -/
structure Site where
  site_id : Option JVal
  site_name : String
  site_type : JVal
  latitude : ℚ
  longitude : ℚ
  address : JVal
  description : String
  established_year : Option JVal := none
  status : Option JVal := none
  city_id : Option JVal := none
  additional_info : JVal := .obj []

structure Person where
  person_id : Option JVal
  full_name : JVal
  birth_year : Option ℚ := none
  death_year : Option ℚ := none
  related_city_ids : List String := []
  latitude : Option ℚ := none
  longitude : Option ℚ := none
  location_name : Option String := none

structure Media where
  media_id : Option JVal
  media_url : JVal
  media_type : String
  caption : JVal

structure Event where
  event_id : Option JVal
  event_name : JVal
  start_date : Option String
  description : String
  media : List Media
  persons : List Person
  related_site_id : Option String
  related_site_name : String

structure AddressSearchResult where
  name : String
  address : String
  coordinates : Option ℚ × Option ℚ

/-! ### JS `Map` / `Set` semantics -/

/-- `Map.set`: overwrite in place if the key exists, else append. -/
def jsMapInsert (m : List (String × JVal)) (k : String) (v : JVal) : List (String × JVal) :=
  if m.any (fun p => p.1 == k) then m.map (fun p => if p.1 == k then (k, v) else p)
  else m ++ [(k, v)]

/-- `new Map(pairs)`: later pairs overwrite earlier ones, first-insertion
iteration order. -/
def jsMapOfList (l : List (String × JVal)) : List (String × JVal) :=
  l.foldl (fun m p => jsMapInsert m p.1 p.2) []

/-- `Map.get` (`none` = `undefined`). -/
def mapGet (m : List (String × JVal)) (k : String) : Option JVal :=
  (m.find? (fun p => p.1 == k)).map (fun p => p.2)

/-- `Map.values()` in iteration order. -/
def jsMapValues (m : List (String × JVal)) : List JVal :=
  m.map (fun p => p.2)

/-- `Set.add` (insertion order preserved). -/
def jsSetAdd (s : List String) (x : String) : List String :=
  if s.contains x then s else s ++ [x]

/-- `Array.from(new Set(l))`: first-occurrence-order de-duplication. -/
def jsSetDedupAux (seen : List String) : List String → List String
  | [] => []
  | x :: xs =>
    if seen.contains x then jsSetDedupAux seen xs
    else x :: jsSetDedupAux (x :: seen) xs

def jsSetDedup (l : List String) : List String :=
  jsSetDedupAux [] l

/-! ### Reference data store (lines 25-43 and 159-195) -/

structure RefData where
  mediaMap : List (String × JVal)
  eventMediaRelations : List JVal
  personEventRelations : List JVal
  personMap : List (String × JVal)
  eventsCache : List JVal
  isLoaded : Bool
  isLoading : Bool

/-- `ensureReferenceDataLoaded`.  `fetched` is the settled outcome of the
`Promise.all` over the five endpoints (`.error` = rejection, in which case
no store field has been assigned when the catch runs).  The returned flag
records whether this call performed the load attempt. -/
def ensureReferenceDataLoaded (env : JsEnv)
    (fetched : Except Unit (JVal × JVal × JVal × JVal × JVal))
    (st : RefData) : RefData × Bool :=
  if st.isLoaded || st.isLoading then (st, false)
  else
    match fetched with
    | .ok (mediaRes, eventMediaRes, personEventRes, personsRes, eventsRes) =>
      let allMedia := extractData env mediaRes
      let mediaMap := jsMapOfList (allMedia.map fun m =>
        (strTrim (jsToStringOpt env (getProp m ["media_key", "media_id"])), m))
      let allPersons := extractData env personsRes
      let personMap := jsMapOfList (allPersons.map fun p =>
        (strTrim (jsToStringOpt env (getProp p ["person_key", "person_id"])), p))
      ({ mediaMap := mediaMap,
         eventMediaRelations := extractData env eventMediaRes,
         personEventRelations := extractData env personEventRes,
         personMap := personMap,
         eventsCache := extractData env eventsRes,
         isLoaded := true, isLoading := false }, true)
    | .error _ => ({ st with isLoading := false }, true)

/-! ### Entity mappers (lines 199-272) -/

/-- `parseAdditionalInfo`: `undefined` on falsy input; a parsed object (or
array) passes through; otherwise the wrapping fallback object. -/
def parseAdditionalInfo (env : JsEnv) (o : Option JVal) : Option JVal :=
  match o with
  | none => none
  | some v =>
    if !truthy v then none
    else
      match env.jsonParse (jsToString env v) with
      | some (.obj fs) => some (.obj fs)
      | some (.arr xs) => some (.arr xs)
      | _ => some (.obj [("Thông tin", v)])

/-- The generic (non-city) branch of `mapSite`. -/
def mapSiteGeneric (env : JsEnv) (item : JVal) : Site :=
  let siteId := getProp item ["site_id", "id"]
  let info := (parseAdditionalInfo env (getProp item ["additional_info", "info"])).getD (.obj [])
  let desc := getProp item ["site_description", "description", "desc", "summary", "content"]
  { site_id := siteId,
    site_name := jsToString env (jsOr (getProp item ["site_name", "name"]) (.str "Không tên")),
    site_type := jsOr (getProp item ["site_type", "type"]) (.str "Di tích"),
    latitude := numOr0 env (getProp item ["latitude", "lat"]),
    longitude := numOr0 env (getProp item ["longitude", "lng", "long"]),
    address := jsOr (getProp item ["address", "addr"]) (.str ""),
    description := cleanText env desc,
    established_year := getProp item ["established_year", "year"],
    status := getProp item ["status"],
    city_id := getProp item ["city_id"],
    additional_info := info }

/-- `mapSite`: a record with a truthy city name and no truthy site type is
mapped as a city-as-site; anything else through the generic branch. -/
def mapSite (env : JsEnv) (item : JVal) : Site :=
  match getProp item ["city_name"] with
  | some cityName =>
    if truthy cityName && !truthyOpt (getProp item ["site_type"]) then
      let cityId := getProp item ["city_id", "id"]
      { site_id := cityId,
        site_name := jsToString env cityName,
        site_type := .str "Thành phố",
        latitude := numOr0 env (getProp item ["lat", "latitude"]),
        longitude := numOr0 env (getProp item ["lng", "longitude"]),
        address := .str "",
        description := "",
        additional_info := .obj [("City ID", .str (jsToStringOpt env cityId))],
        city_id := cityId }
    else mapSiteGeneric env item
  | none => mapSiteGeneric env item

/-- `mapPerson`'s defensive year parser. -/
def parseYear (env : JsEnv) (o : Option JVal) : Option ℚ :=
  match o with
  | some (.num q) => some q
  | some (.str s) =>
    if !(strTrim s == "") then (env.strParseInt s).map (fun n => (n : ℚ)) else none
  | _ => none

def mapPerson (env : JsEnv) (item : JVal) : Person :=
  { person_id := getProp item ["person_id", "id"],
    full_name := jsOr (getProp item ["full_name", "person_name", "name"]) (.str "Không tên"),
    birth_year := parseYear env (getProp item ["birth_year", "birth"]),
    death_year := parseYear env (getProp item ["death_year", "death"]) }

/-! ### Event hydrator (`hydrateEvents`, lines 274-330) -/

/-- A resolved raw media record mapped to the `Media` shape (lines 289-294). -/
def mkMedia (m : JVal) : Media :=
  { media_id := getProp m ["media_id", "id"],
    media_url := jsOr (getProp m ["media_url", "url", "link"]) (.str ""),
    media_type :=
      if optIsStr (getProp m ["media_type", "type"]) "video" ||
         optIsStr (getProp m ["media_type"]) "youtube" then "video" else "image",
    caption := jsOr (getProp m ["caption", "event_name", "title"]) (.str "") }

/-- `String(getProp(evt, ['event_key', 'id'])).trim()`. -/
def eventKeyStr (env : JsEnv) (evt : JVal) : String :=
  strTrim (jsToStringOpt env (getProp evt ["event_key", "id"]))

/-- The media join keys of one event (lines 282-284). -/
def relatedMediaKeysOf (env : JsEnv) (rd : RefData) (evt : JVal) : List String :=
  (rd.eventMediaRelations.filter fun r =>
    strTrim (jsToStringOpt env (getProp r ["event_key", "event_id"])) == eventKeyStr env evt).map
    fun r => strTrim (jsToStringOpt env (getProp r ["media_key", "media_id"]))

/-- The person join keys of one event, including a truthy main-person key
(lines 297-303). -/
def relatedPersonKeysOf (env : JsEnv) (rd : RefData) (evt : JVal) : List String :=
  let fromRelations := (rd.personEventRelations.filter fun r =>
    strTrim (jsToStringOpt env (getProp r ["event_key", "event_id"])) == eventKeyStr env evt).map
    fun r => strTrim (jsToStringOpt env (getProp r ["person_key", "person_id"]))
  match getProp evt ["main_person_key"] with
  | some mk => if truthy mk then fromRelations ++ [strTrim (jsToString env mk)] else fromRelations
  | none => fromRelations

/-- `Array.from(new Set(relatedPersonKeys))` (line 305). -/
def uniquePersonKeysOf (env : JsEnv) (rd : RefData) (evt : JVal) : List String :=
  jsSetDedup (relatedPersonKeysOf env rd evt)

/-- Hydration of a single raw event record. -/
def hydrateOne (env : JsEnv) (rd : RefData) (evt : JVal) : Event :=
  let eventMedia := (relatedMediaKeysOf env rd evt).filterMap fun k =>
    match mapGet rd.mediaMap k with
    | some m => if truthy m then some (mkMedia m) else none
    | none => none
  let eventPersons := (uniquePersonKeysOf env rd evt).filterMap fun k =>
    match mapGet rd.personMap k with
    | some p => if truthy p then some (mapPerson env p) else none
    | none => none
  let rawDate := getProp evt ["event_date", "date", "start_date"]
  { event_id := getProp evt ["event_id", "id"],
    event_name := jsOr (getProp evt ["event_name", "name", "title"]) (.str "Sự kiện"),
    start_date := rawDate.map (jsToString env),
    description := cleanText env (getProp evt ["event_description", "description", "desc", "summary"]),
    media := eventMedia,
    persons := eventPersons,
    related_site_id :=
      match getProp evt ["site_key", "site_id"] with
      | some v => if truthy v then some (jsToString env v) else none
      | none => none,
    related_site_name := "" }

def hydrateEvents (env : JsEnv) (rd : RefData) (rawEvents : List JVal) : List Event :=
  rawEvents.map (hydrateOne env rd)

/-! ### Site fetch orchestrator (`fetchSites`, lines 358-393) -/

/-- One iteration of the `/locations` forEach (lines 370-374). -/
def siteFoldStep (env : JsEnv) (acc : List Site) (item : JVal) : List Site :=
  let site := mapSite env item
  if !(site.latitude == 0) && !(site.longitude == 0) then acc ++ [site] else acc

/-- One iteration of the `/cities` forEach (lines 376-385): a valid city is
appended only when no city-typed site with the same stringified id is
already present. -/
def cityFoldStep (env : JsEnv) (acc : List Site) (item : JVal) : List Site :=
  let citySite := mapSite env item
  if !(citySite.latitude == 0) && !(citySite.longitude == 0) then
    if acc.any (fun s => jsToStringOpt env s.site_id == jsToStringOpt env citySite.site_id &&
                         jvalIsStr s.site_type "Thành phố") then acc
    else acc ++ [citySite]
  else acc

/-- The body of `fetchSites`' try block: map both unwrapped responses,
drop zero-coordinate results, and merge cities without duplicating a
city-typed site that carries the same stringified id. -/
def fetchSitesStep (env : JsEnv) (sitesRes citiesRes : JVal) : List Site :=
  (extractData env citiesRes).foldl (cityFoldStep env)
    ((extractData env sitesRes).foldl (siteFoldStep env) [])

/-- `fetchSites` as a state transformer on the process-wide Site cache.
`fetched` is the settled outcome of the `Promise.all` over `/locations`
and `/cities` (`.error` models any rejection inside the try block, before
the cache assignment).  Result: (returned list, cache afterwards). -/
def fetchSites (env : JsEnv) (fetched : Except Unit (JVal × JVal)) (cache : List Site) :
    List Site × List Site :=
  match fetched with
  | .ok (sitesRes, citiesRes) =>
    let mappedSites := fetchSitesStep env sitesRes citiesRes
    (mappedSites, mappedSites)
  | .error _ => ([], cache)

/-! ### Person location resolver (`fetchPersons`, lines 395-526) -/

/-- The searchable site list: sorted by name length descending (JS `sort`
is stable, so this stable insertion sort models it exactly). -/
def sortSites (sites : List Site) : List Site :=
  List.insertionSort (fun a b => b.site_name.length ≤ a.site_name.length) sites

/-- `String(getProp(rawPerson, ['person_key', 'id'])).trim()` (line 415). -/
def personKeyStr (env : JsEnv) (p : JVal) : String :=
  strTrim (jsToStringOpt env (getProp p ["person_key", "id"]))

/-- `String(getProp(rawPerson, ['person_id', 'id'])).trim()` (line 416). -/
def personIdStr (env : JsEnv) (p : JVal) : String :=
  strTrim (jsToStringOpt env (getProp p ["person_id", "id"]))

/-- Event keys linked to the person through the person-event join table
(lines 426-431). -/
def linkedEventKeys (env : JsEnv) (rd : RefData) (p : JVal) : List String :=
  (rd.personEventRelations.filter fun r =>
    let k := strTrim (jsToStringOpt env (getProp r ["person_key", "person_id"]))
    k == personKeyStr env p || k == personIdStr env p).map
    fun r => strTrim (jsToStringOpt env (getProp r ["event_key", "event_id"]))

/-- One iteration of the Strategy A scan over the global event cache
(lines 434-451): a linked event naming a resolvable site contributes the
site's city id and, for a city-typed site, its own id. -/
def strategyAStep (env : JsEnv) (sites : List Site) (lek : List String) (pKey : String)
    (ids : List String) (evt : JVal) : List String :=
  let eKey := strTrim (jsToStringOpt env (getProp evt ["event_key", "id"]))
  let mainPersonKey := strTrim (jsToStringOpt env (getProp evt ["main_person_key"]))
  if lek.contains eKey || mainPersonKey == pKey then
    match getProp evt ["site_id", "site_key", "location_id"] with
    | some siteId =>
      if truthy siteId then
        match sites.find? (fun s => jsToStringOpt env s.site_id == jsToString env siteId) with
        | some site =>
          let ids1 :=
            match site.city_id with
            | some cid => if truthy cid then jsSetAdd ids (jsToString env cid) else ids
            | none => ids
          if jvalIsStr site.site_type "Thành phố" then jsSetAdd ids1 (jsToStringOpt env site.site_id)
          else ids1
        | none => ids
      else ids
    | none => ids
  else ids

/-- Strategy A: the related-city ids gathered from event linkage. -/
def strategyAIds (env : JsEnv) (sites : List Site) (rd : RefData) (p : JVal) : List String :=
  rd.eventsCache.foldl
    (strategyAStep env sites (linkedEventKeys env rd p) (personKeyStr env p)) []

/-- The combined lower-cased birthplace/hometown/address search text
(lines 455-460). -/
def personText (env : JsEnv) (p : JVal) : String :=
  let birthplace := getProp p ["birthplace", "birth_place", "place_of_birth", "hometown"]
  let queQuan := getProp p ["address", "que_quan"]
  strToLower (strJoinSpace (([birthplace, queQuan].filterMap id).filter truthy |>.map
    (jsToString env)))

/-- The lower-cased biography search text (lines 457, 461). -/
def personBio (env : JsEnv) (p : JVal) : String :=
  match getProp p ["biography", "bio", "description"] with
  | some b => if truthy b then strToLower (jsToString env b) else ""
  | none => ""

/-- The Strategy B match test for one site (lines 464-482): names shorter
than 3 characters are skipped; otherwise a verbatim occurrence in the
strict text, or an occurrence in the biography right after one of the
fixed Vietnamese phrases, is a match. -/
def siteMatches (text bioText : String) (site : Site) : Bool :=
  let siteName := strToLower site.site_name
  if siteName.length < 3 then false
  else
    strIncludes text siteName ||
    strIncludes bioText ("sinh tại " ++ siteName) ||
    strIncludes bioText ("sinh ở " ++ siteName) ||
    strIncludes bioText ("người " ++ siteName) ||
    strIncludes bioText ("quê " ++ siteName)

/-- One iteration of the Strategy B scan (lines 484-496): a match adds the
site's city (or its own id when city-typed) to the related-city set and
claims the map location only if none is set yet. -/
def strategyBStep (env : JsEnv) (text bioText : String)
    (st : List String × Option Site) (site : Site) : List String × Option Site :=
  if siteMatches text bioText site then
    let ids :=
      if jvalIsStr site.site_type "Thành phố" then jsSetAdd st.1 (jsToStringOpt env site.site_id)
      else
        match site.city_id with
        | some cid => if truthy cid then jsSetAdd st.1 (jsToString env cid) else st.1
        | none => st.1
    let loc :=
      match st.2 with
      | some l => some l
      | none => some site
    (ids, loc)
  else st

/-- The tail of the per-person loop body (lines 499-515): store the
related-city set, then assign coordinates from the Strategy B map location
if set, else from the first related city id that resolves among the sites. -/
def assignLocation (env : JsEnv) (sites : List Site) (person : Person)
    (ids : List String) (mapLoc : Option Site) : Person :=
  let base := { person with related_city_ids := ids }
  match mapLoc with
  | some site =>
    { base with latitude := some site.latitude, longitude := some site.longitude,
                location_name := some site.site_name }
  | none =>
    match ids with
    | [] => base
    | firstCityId :: _ =>
      match sites.find? (fun s => jsToStringOpt env s.site_id == firstCityId) with
      | some citySite =>
        { base with latitude := some citySite.latitude, longitude := some citySite.longitude,
                    location_name := some citySite.site_name }
      | none => base

/-- The per-person body of `fetchPersons`' loop (lines 413-517): map the
raw person, run Strategy A then Strategy B over the sorted site list, then
assign coordinates. -/
def resolvePerson (env : JsEnv) (sites : List Site) (rd : RefData) (rawPerson : JVal) : Person :=
  let res := (sortSites sites).foldl
    (strategyBStep env (personText env rawPerson) (personBio env rawPerson))
    (strategyAIds env sites rd rawPerson, none)
  assignLocation env sites (mapPerson env rawPerson) res.1 res.2

/-- The success path of `fetchPersons`: resolve every person in the
reference store's person map, in iteration order. -/
def fetchPersonsStep (env : JsEnv) (sites : List Site) (rd : RefData) : List Person :=
  (jsMapValues rd.personMap).map (resolvePerson env sites rd)

/-! ### Address search (`searchAddress`, lines 756-773) -/

/-- Mapping of one geocoder item (lines 765-769); `none` models the thrown
`TypeError` when `display_name` is not a string (caught by the caller). -/
def searchItem (env : JsEnv) (item : JVal) : Option AddressSearchResult :=
  match objGet item "display_name" with
  | some (.str s) =>
    some { name := (strSplitComma s).headD "",
           address := s,
           coordinates := (env.parseFloatS (jsToStringOpt env (objGet item "lat")),
                           env.parseFloatS (jsToStringOpt env (objGet item "lon"))) }
  | _ => none

/-- `searchAddress` with the settled network outcome (`none` = fetch
failure, non-ok status or JSON error).  The flag records whether a network
request was issued at all. -/
def searchAddress (env : JsEnv) (net : Option (List JVal)) (query : String) :
    List AddressSearchResult × Bool :=
  if query == "" || query.length < 3 then ([], false)
  else
    match net with
    | none => ([], true)
    | some items =>
      match items.mapM (searchItem env) with
      | some results => (results, true)
      | none => ([], true)

/-! ### Helper lemmas: the Strategy B scan -/

lemma strategyBStep_no_match (env : JsEnv) (tx bx : String)
    (st : List String × Option Site) (site : Site)
    (h : siteMatches tx bx site = false) : strategyBStep env tx bx st site = st := by
  simp [strategyBStep, h]

lemma strategyBStep_snd_match (env : JsEnv) (tx bx : String)
    (st : List String × Option Site) (site : Site)
    (h : siteMatches tx bx site = true) :
    (strategyBStep env tx bx st site).2 =
      (match st.2 with | some x => some x | none => some site) := by
  simp [strategyBStep, h]

/-- The Strategy B loop assigns `mapLocation` first-match-wins: the final
map location is the state's, if already set, else the first match of the
scanned list. -/
lemma foldl_strategyB_snd (env : JsEnv) (tx bx : String) :
    ∀ (l : List Site) (st : List String × Option Site),
      (l.foldl (strategyBStep env tx bx) st).2 =
        (match st.2 with
         | some x => some x
         | none => l.find? (siteMatches tx bx)) := by
  intro l
  induction l with
  | nil => intro st; cases h : st.2 <;> simp [h]
  | cons s rest ih =>
    intro st
    rw [List.foldl_cons, ih]
    by_cases hm : siteMatches tx bx s = true
    · rw [strategyBStep_snd_match env tx bx st s hm]
      cases h2 : st.2 with
      | some x => simp [List.find?_cons_of_pos _ hm, h2]
      | none => simp [List.find?_cons_of_pos _ hm, h2]
    · have hm' : siteMatches tx bx s = false := eq_false_of_ne_true hm
      rw [strategyBStep_no_match env tx bx st s hm']
      cases h2 : st.2 <;> simp [List.find?_cons, hm', h2]

/-- If no scanned site matches, the whole Strategy B loop is the identity
on the state (neither the id set nor the map location changes). -/
lemma foldl_strategyB_no_match (env : JsEnv) (tx bx : String) :
    ∀ (l : List Site) (st : List String × Option Site),
      (∀ s ∈ l, siteMatches tx bx s = false) →
      l.foldl (strategyBStep env tx bx) st = st := by
  intro l
  induction l with
  | nil => intro st _; rfl
  | cons s rest ih =>
    intro st h
    rw [List.foldl_cons, strategyBStep_no_match env tx bx st s (h s (by simp))]
    exact ih st (fun x hx => h x (by simp [hx]))

/-! ### Concrete fixtures used by witnesses and counterexamples -/

/-- A concrete host environment for closed evaluations (its abstract
members are never consulted on the fixtures' all-string data). -/
def env0 : JsEnv :=
  { showVal := fun _ => "", strToNum := fun _ => none, strParseInt := fun _ => none,
    jsonParse := fun _ => none, parseFloatS := fun _ => none }

def refDataEmpty : RefData :=
  { mediaMap := [], eventMediaRelations := [], personEventRelations := [],
    personMap := [], eventsCache := [], isLoaded := true, isLoading := false }

def hueSite : Site :=
  { site_id := some (.str "1"), site_name := "Huế", site_type := .str "Thành phố",
    latitude := 16, longitude := 107, address := .str "", description := "" }

def thuaThienHueSite : Site :=
  { site_id := some (.str "2"), site_name := "Thừa Thiên Huế", site_type := .str "Thành phố",
    latitude := 17, longitude := 108, address := .str "", description := "" }

def hueHometownPerson : JVal :=
  .obj [("person_key", .str "p1"), ("hometown", .str "Thừa Thiên Huế")]

/-- A non-city site whose parent city id 9 appears in no site record. -/
def alphaSite : Site :=
  { site_id := some (.str "1"), site_name := "Alpha", site_type := .str "Di tích",
    latitude := 10, longitude := 20, address := .str "", description := "",
    city_id := some (.str "9") }

/-- The city with id 9, present only in the witness scenario. -/
def cityNineSite : Site :=
  { site_id := some (.str "9"), site_name := "Nine", site_type := .str "Thành phố",
    latitude := 1, longitude := 2, address := .str "", description := "" }

/-- Reference data linking person `p` to an event held at site 1. -/
def eventLinkedRd : RefData :=
  { mediaMap := [], eventMediaRelations := [],
    personEventRelations := [.obj [("person_key", .str "p"), ("event_key", .str "e")]],
    personMap := [], eventsCache := [.obj [("event_key", .str "e"), ("site_id", .str "1")]],
    isLoaded := true, isLoading := false }

def keyOnlyPerson : JVal := .obj [("person_key", .str "p")]

/-! ### C1 -/

/-- C1: in `fetchPersons`, whenever some site matches the person's texts
(lower-cased name of length at least 3 occurring verbatim in the combined
birthplace/hometown/address text, or in the biography after one of the
phrases "sinh tại", "sinh ở", "người", "quê"), the person's latitude,
longitude and location name are taken from the first such match in the
site list sorted descending by name length; later matches never override
the map location. -/
theorem fetchPersons_location_is_first_sorted_match
    (env : JsEnv) (sites : List Site) (rd : RefData) (rawPerson : JVal) (s : Site)
    (h : (sortSites sites).find?
      (siteMatches (personText env rawPerson) (personBio env rawPerson)) = some s) :
    (resolvePerson env sites rd rawPerson).latitude = some s.latitude ∧
    (resolvePerson env sites rd rawPerson).longitude = some s.longitude ∧
    (resolvePerson env sites rd rawPerson).location_name = some s.site_name := by
  have h2 : ((sortSites sites).foldl
      (strategyBStep env (personText env rawPerson) (personBio env rawPerson))
      (strategyAIds env sites rd rawPerson, none)).2 = some s := by
    rw [foldl_strategyB_snd]; exact h
  have h3 : resolvePerson env sites rd rawPerson
      = assignLocation env sites (mapPerson env rawPerson)
        ((sortSites sites).foldl
          (strategyBStep env (personText env rawPerson) (personBio env rawPerson))
          (strategyAIds env sites rd rawPerson, none)).1
        ((sortSites sites).foldl
          (strategyBStep env (personText env rawPerson) (personBio env rawPerson))
          (strategyAIds env sites rd rawPerson, none)).2 := rfl
  rw [h3, h2]
  simp [assignLocation]

/-- C1 witness: with sites named "Huế" and "Thừa Thiên Huế" and hometown
text "Thừa Thiên Huế", the resolved location is "Thừa Thiên Huế". -/
theorem fetchPersons_location_is_first_sorted_match_witness :
    (sortSites [hueSite, thuaThienHueSite]).find?
      (siteMatches (personText env0 hueHometownPerson) (personBio env0 hueHometownPerson))
      = some thuaThienHueSite ∧
    (resolvePerson env0 [hueSite, thuaThienHueSite] refDataEmpty hueHometownPerson).location_name
      = some "Thừa Thiên Huế" := by
  refine ⟨rfl, ?_⟩
  exact (fetchPersons_location_is_first_sorted_match env0 [hueSite, thuaThienHueSite]
    refDataEmpty hueHometownPerson thuaThienHueSite rfl).2.2

/-! ### C7 -/

/-- C7 (amended): in `fetchPersons`, when Strategy B found no match, the
related-city set is exactly Strategy A's; if it is empty the person keeps
no coordinates, and if it is non-empty the person receives the latitude,
longitude and name of the first-encountered related city id only when that
id resolves among the sites — when the lookup of that first id fails, the
person is left without coordinates even though the set is non-empty. -/
theorem fetchPersons_city_fallback_needs_resolvable_first_id
    (env : JsEnv) (sites : List Site) (rd : RefData) (rawPerson : JVal)
    (h : (sortSites sites).find?
      (siteMatches (personText env rawPerson) (personBio env rawPerson)) = none) :
    (resolvePerson env sites rd rawPerson).related_city_ids
      = strategyAIds env sites rd rawPerson ∧
    (strategyAIds env sites rd rawPerson = [] →
      (resolvePerson env sites rd rawPerson).latitude = none ∧
      (resolvePerson env sites rd rawPerson).longitude = none ∧
      (resolvePerson env sites rd rawPerson).location_name = none) ∧
    (∀ k rest, strategyAIds env sites rd rawPerson = k :: rest →
      (∀ citySite, sites.find? (fun s => jsToStringOpt env s.site_id == k) = some citySite →
        (resolvePerson env sites rd rawPerson).latitude = some citySite.latitude ∧
        (resolvePerson env sites rd rawPerson).longitude = some citySite.longitude ∧
        (resolvePerson env sites rd rawPerson).location_name = some citySite.site_name) ∧
      (sites.find? (fun s => jsToStringOpt env s.site_id == k) = none →
        (resolvePerson env sites rd rawPerson).latitude = none ∧
        (resolvePerson env sites rd rawPerson).longitude = none ∧
        (resolvePerson env sites rd rawPerson).location_name = none)) := by
  have hall : ∀ s ∈ sortSites sites,
      siteMatches (personText env rawPerson) (personBio env rawPerson) s = false := by
    intro s hs
    exact eq_false_of_ne_true (List.find?_eq_none.mp h s hs)
  have hfold : (sortSites sites).foldl
      (strategyBStep env (personText env rawPerson) (personBio env rawPerson))
      (strategyAIds env sites rd rawPerson, none)
      = (strategyAIds env sites rd rawPerson, none) :=
    foldl_strategyB_no_match env _ _ (sortSites sites) _ hall
  have h3 : resolvePerson env sites rd rawPerson
      = assignLocation env sites (mapPerson env rawPerson)
        (strategyAIds env sites rd rawPerson) none := by
    show assignLocation env sites (mapPerson env rawPerson)
      ((sortSites sites).foldl
        (strategyBStep env (personText env rawPerson) (personBio env rawPerson))
        (strategyAIds env sites rd rawPerson, none)).1
      ((sortSites sites).foldl
        (strategyBStep env (personText env rawPerson) (personBio env rawPerson))
        (strategyAIds env sites rd rawPerson, none)).2
      = _
    rw [hfold]
  refine ⟨?_, ?_, ?_⟩
  · rw [h3]
    cases hA : strategyAIds env sites rd rawPerson with
    | nil => simp [assignLocation]
    | cons k rest =>
      cases hF : sites.find? (fun s => jsToStringOpt env s.site_id == k) with
      | some citySite => simp [assignLocation, hF]
      | none => simp [assignLocation, hF]
  · intro hA
    rw [h3, hA]
    simp [assignLocation, mapPerson]
  · intro k rest hA
    constructor
    · intro citySite hF
      rw [h3, hA]
      simp [assignLocation, hF]
    · intro hF
      rw [h3, hA]
      simp [assignLocation, hF, mapPerson]

/-- C7 witness: person `p` is linked to an event at site 1, whose city id
9 resolves to the city site; with no text match, the person receives city
9's coordinates. -/
theorem fetchPersons_city_fallback_needs_resolvable_first_id_witness :
    strategyAIds env0 [alphaSite, cityNineSite] eventLinkedRd keyOnlyPerson = ["9"] ∧
    (resolvePerson env0 [alphaSite, cityNineSite] eventLinkedRd keyOnlyPerson).latitude
      = some 1 ∧
    (resolvePerson env0 [alphaSite, cityNineSite] eventLinkedRd keyOnlyPerson).location_name
      = some "Nine" := by
  have h := fetchPersons_city_fallback_needs_resolvable_first_id env0
    [alphaSite, cityNineSite] eventLinkedRd keyOnlyPerson rfl
  have h2 := (h.2.2 "9" [] rfl).1 cityNineSite rfl
  exact ⟨rfl, h2.1, h2.2.2⟩

/-- C7 counterexample: with the same event linkage but no site record for
city id 9, the related-city set is non-empty and Strategy B found nothing,
yet the person is left without coordinates — contradicting the claim that
such a person "is assigned the latitude, longitude and name of the
first-encountered related city" and that only a person with an empty
related-cities set and no text match lacks coordinates. -/
theorem fetchPersons_city_fallback_counterexample :
    (resolvePerson env0 [alphaSite] eventLinkedRd keyOnlyPerson).related_city_ids = ["9"] ∧
    (resolvePerson env0 [alphaSite] eventLinkedRd keyOnlyPerson).latitude = none ∧
    (resolvePerson env0 [alphaSite] eventLinkedRd keyOnlyPerson).longitude = none ∧
    (resolvePerson env0 [alphaSite] eventLinkedRd keyOnlyPerson).location_name = none :=
  ⟨rfl, rfl, rfl, rfl⟩

/-! ### C8 -/

/-- C8: a call to `ensureReferenceDataLoaded` that arrives while the store
is already loaded or a load is in flight returns immediately: no fetch is
performed and no field of the store changes — in particular a caller
arriving during an in-flight load returns with the data still not ready,
and a loaded store is never refreshed. -/
theorem ensureReferenceDataLoaded_guard (env : JsEnv)
    (fetched : Except Unit (JVal × JVal × JVal × JVal × JVal)) (st : RefData)
    (h : st.isLoaded = true ∨ st.isLoading = true) :
    ensureReferenceDataLoaded env fetched st = (st, false) := by
  have hc : (st.isLoaded || st.isLoading) = true := by
    rcases h with h | h <;> simp [h]
  simp [ensureReferenceDataLoaded, hc]

/-- C8 witness: a store with a load in flight (not yet loaded) is returned
unchanged, still not loaded, with no fetch performed. -/
theorem ensureReferenceDataLoaded_guard_witness :
    ensureReferenceDataLoaded env0 (.error ())
        { refDataEmpty with isLoaded := false, isLoading := true }
      = ({ refDataEmpty with isLoaded := false, isLoading := true }, false) ∧
    ({ refDataEmpty with isLoaded := false, isLoading := true } : RefData).isLoaded = false :=
  ⟨ensureReferenceDataLoaded_guard env0 (.error ())
      { refDataEmpty with isLoaded := false, isLoading := true } (Or.inr rfl), rfl⟩

/-! ### C9 -/

/-- C9: `searchAddress` with an empty or shorter-than-3-character query
resolves to the empty list without issuing any network request. -/
theorem searchAddress_short_query_no_request (env : JsEnv)
    (net : Option (List JVal)) (query : String) (h : query.length < 3) :
    searchAddress env net query = ([], false) := by
  have hc : (query == "" || decide (query.length < 3)) = true := by
    simp [h]
  simp [searchAddress, hc]

/-- C9 witness at the two-character query "ab". -/
theorem searchAddress_short_query_no_request_witness :
    searchAddress env0 (some [.obj [("display_name", .str "x")]]) "ab" = ([], false) :=
  searchAddress_short_query_no_request env0 _ "ab" (by decide)

/-! ### C10 -/

/-- C10: `fetchSites` is atomic with respect to the process-wide Site
cache: through the error branch it returns the empty list and leaves the
cache untouched, and on success the cache is exactly the returned list. -/
theorem fetchSites_cache_atomic (env : JsEnv) (resp : JVal × JVal) (cache : List Site) :
    fetchSites env (.error ()) cache = ([], cache) ∧
    (fetchSites env (.ok resp) cache).2 = (fetchSites env (.ok resp) cache).1 :=
  ⟨rfl, rfl⟩

/-! ### C3 -/

/-- `fetchSites` composed with the remote fetcher: the `Promise.all`
succeeds with whatever the two `fetchFromApi` calls resolved to, and
rejects only if one of them rejected. -/
def fetchSitesRun (env : JsEnv) (o1 o2 : List (Except String JVal)) (cache : List Site) :
    List Site × List Site :=
  match fetchFromApi o1, fetchFromApi o2 with
  | .ok sitesRes, .ok citiesRes => fetchSites env (.ok (sitesRes, citiesRes)) cache
  | _, _ => fetchSites env (.error ()) cache

/-- C3: `fetchFromApi` never rejects, and when the direct fetch and all
three proxy strategies reject it resolves to the empty array; consequently
`fetchSites` resolves to the empty list in that scenario (for both
endpoints) rather than throwing. -/
theorem fetchFromApi_all_reject_empty (env : JsEnv)
    (o1 o2 : List (Except String JVal)) (cache : List Site)
    (h1 : ∀ r ∈ o1, ∃ e, r = Except.error e)
    (h2 : ∀ r ∈ o2, ∃ e, r = Except.error e) :
    (∀ o : List (Except String JVal), ∃ v, fetchFromApi o = .ok v) ∧
    fetchFromApi o1 = .ok (.arr []) ∧
    (fetchSitesRun env o1 o2 cache).1 = [] := by
  have never : ∀ o : List (Except String JVal), ∃ v, fetchFromApi o = .ok v := by
    intro o
    unfold fetchFromApi
    cases hp : promiseAny o with
    | ok v => exact ⟨v, rfl⟩
    | error e => exact ⟨.arr [], rfl⟩
  have allReject : ∀ (o : List (Except String JVal)),
      (∀ r ∈ o, ∃ e, r = Except.error e) → fetchFromApi o = .ok (.arr []) := by
    intro o ho
    have hfind : o.find? (fun r => r matches .ok _) = none := by
      rw [List.find?_eq_none]
      intro r hr
      obtain ⟨e, rfl⟩ := ho r hr
      simp
    unfold fetchFromApi promiseAny
    rcases o with _ | ⟨r, rest⟩
    · rfl
    · simp only [List.isEmpty_cons, hfind]
      rfl
  refine ⟨never, allReject o1 h1, ?_⟩
  unfold fetchSitesRun
  rw [allReject o1 h1, allReject o2 h2]
  rfl

/-- C3 witness: four rejections for `/locations` and for `/cities`; the
fetcher resolves with the empty array and `fetchSites` with the empty
list, leaving nothing thrown. -/
theorem fetchFromApi_all_reject_empty_witness :
    fetchFromApi [Except.error "HTTP 500", .error "timeout", .error "timeout", .error "HTTP 502"]
      = .ok (.arr []) ∧
    (fetchSitesRun env0
      [Except.error "HTTP 500", .error "timeout", .error "timeout", .error "HTTP 502"]
      [Except.error "failed", .error "failed", .error "failed", .error "failed"]
      [hueSite]).1 = [] := by
  have h := fetchFromApi_all_reject_empty env0
    [Except.error "HTTP 500", .error "timeout", .error "timeout", .error "HTTP 502"]
    [Except.error "failed", .error "failed", .error "failed", .error "failed"]
    [hueSite]
    (by
      intro r hr
      simp only [List.mem_cons, List.not_mem_nil, or_false] at hr
      rcases hr with rfl | rfl | rfl | rfl <;> exact ⟨_, rfl⟩)
    (by
      intro r hr
      simp only [List.mem_cons, List.not_mem_nil, or_false] at hr
      rcases hr with rfl | rfl | rfl | rfl <;> exact ⟨_, rfl⟩)
  exact ⟨h.2.1, h.2.2⟩

/-! ### C5 -/

/-- The duplicate test used by the `/cities` merge, at a fixed stringified
id `k`: a city-typed site whose stringified id is `k`. -/
def cityKeyPred (env : JsEnv) (k : String) (s : Site) : Bool :=
  jsToStringOpt env s.site_id == k && jvalIsStr s.site_type "Thành phố"

lemma mem_siteFoldStep (env : JsEnv) (acc : List Site) (item : JVal) :
    ∀ x ∈ siteFoldStep env acc item,
      x ∈ acc ∨ (x = mapSite env item ∧
        ¬(mapSite env item).latitude = 0 ∧ ¬(mapSite env item).longitude = 0) := by
  intro x hx
  simp only [siteFoldStep] at hx
  by_cases hc : (!((mapSite env item).latitude == 0) && !((mapSite env item).longitude == 0)) = true
  · rw [if_pos hc] at hx
    simp only [Bool.and_eq_true, Bool.not_eq_true', beq_eq_false_iff_ne] at hc
    rcases List.mem_append.mp hx with h | h
    · exact Or.inl h
    · exact Or.inr ⟨List.mem_singleton.mp h, hc.1, hc.2⟩
  · rw [if_neg hc] at hx
    exact Or.inl hx

lemma mem_cityFoldStep (env : JsEnv) (acc : List Site) (item : JVal) :
    ∀ x ∈ cityFoldStep env acc item,
      x ∈ acc ∨ (x = mapSite env item ∧
        ¬(mapSite env item).latitude = 0 ∧ ¬(mapSite env item).longitude = 0) := by
  intro x hx
  simp only [cityFoldStep] at hx
  by_cases hc : (!((mapSite env item).latitude == 0) && !((mapSite env item).longitude == 0)) = true
  · rw [if_pos hc] at hx
    simp only [Bool.and_eq_true, Bool.not_eq_true', beq_eq_false_iff_ne] at hc
    by_cases hany : (acc.any fun s =>
        jsToStringOpt env s.site_id == jsToStringOpt env (mapSite env item).site_id &&
        jvalIsStr s.site_type "Thành phố") = true
    · rw [if_pos hany] at hx
      exact Or.inl hx
    · rw [if_neg hany] at hx
      rcases List.mem_append.mp hx with h | h
      · exact Or.inl h
      · exact Or.inr ⟨List.mem_singleton.mp h, hc.1, hc.2⟩
  · rw [if_neg hc] at hx
    exact Or.inl hx

lemma mem_siteFold (env : JsEnv) :
    ∀ (l : List JVal) (acc : List Site), ∀ x ∈ l.foldl (siteFoldStep env) acc,
      x ∈ acc ∨ ∃ raw ∈ l, x = mapSite env raw ∧
        ¬(mapSite env raw).latitude = 0 ∧ ¬(mapSite env raw).longitude = 0 := by
  intro l
  induction l with
  | nil => intro acc x hx; exact Or.inl hx
  | cons item t ih =>
    intro acc x hx
    rw [List.foldl_cons] at hx
    rcases ih (siteFoldStep env acc item) x hx with h | ⟨raw, hraw, hx2⟩
    · rcases mem_siteFoldStep env acc item x h with h2 | ⟨hx2, hnz⟩
      · exact Or.inl h2
      · exact Or.inr ⟨item, by simp, hx2, hnz⟩
    · exact Or.inr ⟨raw, by simp [hraw], hx2⟩

lemma mem_cityFold (env : JsEnv) :
    ∀ (l : List JVal) (acc : List Site), ∀ x ∈ l.foldl (cityFoldStep env) acc,
      x ∈ acc ∨ ∃ raw ∈ l, x = mapSite env raw ∧
        ¬(mapSite env raw).latitude = 0 ∧ ¬(mapSite env raw).longitude = 0 := by
  intro l
  induction l with
  | nil => intro acc x hx; exact Or.inl hx
  | cons item t ih =>
    intro acc x hx
    rw [List.foldl_cons] at hx
    rcases ih (cityFoldStep env acc item) x hx with h | ⟨raw, hraw, hx2⟩
    · rcases mem_cityFoldStep env acc item x h with h2 | ⟨hx2, hnz⟩
      · exact Or.inl h2
      · exact Or.inr ⟨item, by simp, hx2, hnz⟩
    · exact Or.inr ⟨raw, by simp [hraw], hx2⟩

lemma countP_cityFoldStep (env : JsEnv) (k : String) (acc : List Site) (item : JVal)
    (h : acc.countP (cityKeyPred env k) ≤ 1) :
    (cityFoldStep env acc item).countP (cityKeyPred env k) ≤ 1 := by
  simp only [cityFoldStep]
  by_cases hc : (!((mapSite env item).latitude == 0) && !((mapSite env item).longitude == 0)) = true
  · rw [if_pos hc]
    by_cases hany : (acc.any fun s =>
        jsToStringOpt env s.site_id == jsToStringOpt env (mapSite env item).site_id &&
        jvalIsStr s.site_type "Thành phố") = true
    · rw [if_pos hany]; exact h
    · rw [if_neg hany]
      rw [List.countP_append]
      by_cases hk : cityKeyPred env k (mapSite env item) = true
      · have hkey : jsToStringOpt env (mapSite env item).site_id = k := by
          have := (Bool.and_eq_true _ _).mp hk
          exact eq_of_beq this.1
        have hzero : acc.countP (cityKeyPred env k) = 0 := by
          rw [List.countP_eq_zero]
          intro s hs hcontra
          apply hany
          rw [List.any_eq_true]
          refine ⟨s, hs, ?_⟩
          have := (Bool.and_eq_true _ _).mp hcontra
          rw [Bool.and_eq_true]
          refine ⟨?_, this.2⟩
          rw [hkey]
          exact this.1
        rw [hzero]
        simp [hk]
      · have hk' : cityKeyPred env k (mapSite env item) = false := eq_false_of_ne_true hk
        have : List.countP (cityKeyPred env k) [mapSite env item] = 0 := by
          simp [hk']
        rw [this]
        simpa using h
  · rw [if_neg hc]; exact h

lemma countP_cityFold (env : JsEnv) (k : String) :
    ∀ (l : List JVal) (acc : List Site), acc.countP (cityKeyPred env k) ≤ 1 →
      (l.foldl (cityFoldStep env) acc).countP (cityKeyPred env k) ≤ 1 := by
  intro l
  induction l with
  | nil => intro acc h; exact h
  | cons item t ih =>
    intro acc h
    rw [List.foldl_cons]
    exact ih _ (countP_cityFoldStep env k acc item h)

/-- The `/locations` response of the end-to-end scenario: one record with
valid coordinates and one mapping to (0,0). -/
def locationsTwoRecords : JVal := .arr [
  .obj [("site_id", .str "s1"), ("site_name", .str "A"),
        ("latitude", .num 16), ("longitude", .num 107)],
  .obj [("site_id", .str "s2"), ("site_name", .str "B"),
        ("latitude", .num 0), ("longitude", .num 0)]]

/-- C5: `fetchSites` returns exactly the mapped sites — every returned
site is some fetched location or city record passed through the Site
mapper, any mapped result with a zero coordinate is excluded (so a record
mapping to (0,0) is never returned), a mapped city is not appended when a
city with the same stringified id is already present, and the returned
list becomes the new Site cache; for a `/locations` response with one
valid record and one (0,0) record, exactly one Site is returned. -/
theorem fetchSites_mapped_filtered_dedup_cache
    (env : JsEnv) (sitesRes citiesRes : JVal) (cache : List Site) :
    fetchSites env (.ok (sitesRes, citiesRes)) cache
      = (fetchSitesStep env sitesRes citiesRes, fetchSitesStep env sitesRes citiesRes) ∧
    (∀ s ∈ fetchSitesStep env sitesRes citiesRes,
      (¬ s.latitude = 0 ∧ ¬ s.longitude = 0) ∧
      ((∃ raw ∈ extractData env sitesRes, s = mapSite env raw) ∨
       (∃ raw ∈ extractData env citiesRes, s = mapSite env raw))) ∧
    (∀ k : String,
      ((extractData env sitesRes).foldl (siteFoldStep env) []).countP (cityKeyPred env k) = 0 →
      (fetchSitesStep env sitesRes citiesRes).countP (cityKeyPred env k) ≤ 1) ∧
    (fetchSites env0 (.ok (locationsTwoRecords, .arr [])) ([] : List Site)).1.length = 1 := by
  refine ⟨rfl, ?_, ?_, rfl⟩
  · intro s hs
    simp only [fetchSitesStep] at hs
    rcases mem_cityFold env _ _ s hs with h | ⟨raw, hraw, hx, hnz1, hnz2⟩
    · rcases mem_siteFold env _ _ s h with h2 | ⟨raw, hraw, hx, hnz1, hnz2⟩
      · exact absurd h2 (List.not_mem_nil s)
      · exact ⟨by rw [hx]; exact ⟨hnz1, hnz2⟩, Or.inl ⟨raw, hraw, hx⟩⟩
    · exact ⟨by rw [hx]; exact ⟨hnz1, hnz2⟩, Or.inr ⟨raw, hraw, hx⟩⟩
  · intro k hk
    simp only [fetchSitesStep]
    exact countP_cityFold env k _ _ (by rw [hk]; exact Nat.zero_le 1)

/-- C5 witness: a `/cities` response listing the same city twice yields a
single entry (the duplicate-id test fires), and the end-to-end
one-valid-one-zero scenario from the theorem's last conjunct. -/
theorem fetchSites_mapped_filtered_dedup_cache_witness :
    ((extractData env0 (JVal.arr [])).foldl (siteFoldStep env0) []).countP
      (cityKeyPred env0 "7") = 0 ∧
    (fetchSitesStep env0 (.arr [])
      (.arr [.obj [("city_name", .str "X"), ("city_id", .str "7"),
                   ("lat", .num 1), ("lng", .num 2)],
             .obj [("city_name", .str "X"), ("city_id", .str "7"),
                   ("lat", .num 1), ("lng", .num 2)]])).countP (cityKeyPred env0 "7") ≤ 1 ∧
    (fetchSites env0 (.ok (locationsTwoRecords, .arr [])) ([] : List Site)).1.length = 1 := by
  have h := fetchSites_mapped_filtered_dedup_cache env0 (.arr [])
    (.arr [.obj [("city_name", .str "X"), ("city_id", .str "7"),
                 ("lat", .num 1), ("lng", .num 2)],
           .obj [("city_name", .str "X"), ("city_id", .str "7"),
                 ("lat", .num 1), ("lng", .num 2)]]) []
  exact ⟨rfl, h.2.2.1 "7" rfl, h.2.2.2⟩

/-! ### C4 -/

lemma filterMap_length_eq_filter {α β : Type} (f : α → Option β) (l : List α) :
    (l.filterMap f).length = (l.filter (fun a => (f a).isSome)).length := by
  induction l with
  | nil => rfl
  | cons a t ih => cases h : f a <;> simp [List.filterMap_cons, h, List.filter_cons, ih]

lemma jsSetDedupAux_spec : ∀ (l seen : List String),
    (∀ y ∈ jsSetDedupAux seen l, y ∉ seen) ∧ (jsSetDedupAux seen l).Nodup := by
  intro l
  induction l with
  | nil =>
    intro seen
    exact ⟨fun y hy => absurd hy (List.not_mem_nil y), List.nodup_nil⟩
  | cons x xs ih =>
    intro seen
    by_cases hc : seen.contains x = true
    · rw [show jsSetDedupAux seen (x :: xs)
          = jsSetDedupAux seen xs by simp only [jsSetDedupAux]; rw [if_pos hc]]
      exact ih seen
    · rw [show jsSetDedupAux seen (x :: xs)
          = x :: jsSetDedupAux (x :: seen) xs by simp only [jsSetDedupAux]; rw [if_neg hc]]
      have hx : x ∉ seen := by
        intro hmem
        exact hc (List.elem_eq_true_of_mem hmem)
      constructor
      · intro y hy
        rcases List.mem_cons.mp hy with rfl | hy2
        · exact hx
        · intro hmem
          exact (ih (x :: seen)).1 y hy2 (List.mem_cons_of_mem x hmem)
      · rw [List.nodup_cons]
        refine ⟨fun hmem => (ih (x :: seen)).1 x hmem (List.mem_cons_self x seen), (ih (x :: seen)).2⟩

lemma jsSetDedup_nodup (l : List String) : (jsSetDedup l).Nodup :=
  (jsSetDedupAux_spec l []).2

/-- C4 (amended): events hydrated by `hydrateEvents` carry no dangling
references.  The `media` array has one entry per event-media join key that
resolves in `mediaMap` to a truthy record — a key that is absent, or that
resolves to a falsy stored value such as `null`, contributes no entry and
raises no error; the `persons` array is de-duplicated by person key and
contains only persons whose key resolves (to a truthy record) in
`personMap`, unresolved keys being silently dropped. -/
theorem hydrateEvents_no_dangling
    (env : JsEnv) (rd : RefData) (rawEvents : List JVal) (evt : JVal) :
    hydrateEvents env rd rawEvents = rawEvents.map (hydrateOne env rd) ∧
    (hydrateOne env rd evt).media.length
      = ((relatedMediaKeysOf env rd evt).filter
          (fun k => truthyOpt (mapGet rd.mediaMap k))).length ∧
    (∀ md ∈ (hydrateOne env rd evt).media, ∃ k ∈ relatedMediaKeysOf env rd evt,
      ∃ m, mapGet rd.mediaMap k = some m ∧ truthy m = true ∧ md = mkMedia m) ∧
    (uniquePersonKeysOf env rd evt).Nodup ∧
    (hydrateOne env rd evt).persons.length
      = ((uniquePersonKeysOf env rd evt).filter
          (fun k => truthyOpt (mapGet rd.personMap k))).length ∧
    (∀ p ∈ (hydrateOne env rd evt).persons, ∃ k ∈ uniquePersonKeysOf env rd evt,
      ∃ q, mapGet rd.personMap k = some q ∧ truthy q = true ∧ p = mapPerson env q) := by
  have hmedia : (hydrateOne env rd evt).media
      = (relatedMediaKeysOf env rd evt).filterMap (fun k =>
          match mapGet rd.mediaMap k with
          | some m => if truthy m then some (mkMedia m) else none
          | none => none) := rfl
  have hpersons : (hydrateOne env rd evt).persons
      = (uniquePersonKeysOf env rd evt).filterMap (fun k =>
          match mapGet rd.personMap k with
          | some p => if truthy p then some (mapPerson env p) else none
          | none => none) := rfl
  refine ⟨rfl, ?_, ?_, jsSetDedup_nodup _, ?_, ?_⟩
  · rw [hmedia, filterMap_length_eq_filter]
    congr 1
    apply List.filter_congr
    intro k _
    cases h : mapGet rd.mediaMap k with
    | none => simp [truthyOpt]
    | some m => by_cases ht : truthy m = true <;> simp [truthyOpt, ht]
  · intro md hmd
    rw [hmedia] at hmd
    rcases List.mem_filterMap.mp hmd with ⟨k, hk, hfk⟩
    refine ⟨k, hk, ?_⟩
    cases h : mapGet rd.mediaMap k with
    | none => rw [h] at hfk; cases hfk
    | some m =>
      rw [h] at hfk
      have hfk' : (if truthy m = true then some (mkMedia m) else none) = some md := hfk
      by_cases ht : truthy m = true
      · rw [if_pos ht] at hfk'
        exact ⟨m, rfl, ht, (Option.some.injEq _ _ ▸ hfk').symm⟩
      · rw [if_neg ht] at hfk'; cases hfk' 
  · rw [hpersons, filterMap_length_eq_filter]
    congr 1
    apply List.filter_congr
    intro k _
    cases h : mapGet rd.personMap k with
    | none => simp [truthyOpt]
    | some p => by_cases ht : truthy p = true <;> simp [truthyOpt, ht]
  · intro p hp
    rw [hpersons] at hp
    rcases List.mem_filterMap.mp hp with ⟨k, hk, hfk⟩
    refine ⟨k, hk, ?_⟩
    cases h : mapGet rd.personMap k with
    | none => rw [h] at hfk; cases hfk
    | some q =>
      rw [h] at hfk
      have hfk' : (if truthy q = true then some (mapPerson env q) else none) = some p := hfk
      by_cases ht : truthy q = true
      · rw [if_pos ht] at hfk'
        exact ⟨q, rfl, ht, (Option.some.injEq _ _ ▸ hfk').symm⟩
      · rw [if_neg ht] at hfk'; cases hfk' 

/-- A bare event with key e1, used by the hydration scenarios. -/
def simpleEvt : JVal := .obj [("event_key", .str "e1")]

/-- Reference data with an event-media relation whose media key resolves
to nothing. -/
def danglingRd : RefData :=
  { mediaMap := [],
    eventMediaRelations := [.obj [("event_key", .str "e1"), ("media_key", .str "missing")]],
    personEventRelations := [], personMap := [], eventsCache := [],
    isLoaded := true, isLoading := false }

/-- C4 witness: the dangling relation produces no media entry and no
error, and the person keys are de-duplicated. -/
theorem hydrateEvents_no_dangling_witness :
    (hydrateOne env0 danglingRd simpleEvt).media.length = 0 ∧
    (uniquePersonKeysOf env0 danglingRd simpleEvt).Nodup := by
  have h := hydrateEvents_no_dangling env0 danglingRd [simpleEvt] simpleEvt
  exact ⟨by rw [h.2.1]; rfl, h.2.2.2.1⟩

/-- Reference data whose media map stores `null` under key m1. -/
def nullMediaRd : RefData :=
  { mediaMap := [("m1", .null)],
    eventMediaRelations := [.obj [("event_key", .str "e1"), ("media_key", .str "m1")]],
    personEventRelations := [], personMap := [], eventsCache := [],
    isLoaded := true, isLoading := false }

/-- C4 counterexample: the join key m1 resolves in `mediaMap` (to the
stored value `null`), yet the hydrated event's media array is empty — the
truthiness filter also drops resolved falsy values, so "one entry per join
key that resolves in mediaMap" fails as stated. -/
theorem hydrate_media_null_value_counterexample :
    relatedMediaKeysOf env0 nullMediaRd simpleEvt = ["m1"] ∧
    mapGet nullMediaRd.mediaMap "m1" = some JVal.null ∧
    (hydrateOne env0 nullMediaRd simpleEvt).media = [] :=
  ⟨rfl, rfl, rfl⟩

/-! ### C6 -/

/-- C6 (amended): a media record resolved during hydration is typed
"video" exactly when its media-type resolved through the alternate field
names `media_type`, `type` is the string "video", or the value of the
`media_type` field alone is "youtube"; every other record (including one
whose "youtube" value sits only under the alternate `type` field) is typed
"image". -/
theorem media_type_video_iff (env : JsEnv) (rd : RefData) (evt : JVal) (m : JVal) :
    ((mkMedia m).media_type = "video" ↔
      (optIsStr (getProp m ["media_type", "type"]) "video" = true ∨
       optIsStr (getProp m ["media_type"]) "youtube" = true)) ∧
    ((mkMedia m).media_type = "video" ∨ (mkMedia m).media_type = "image") ∧
    (∀ md ∈ (hydrateOne env rd evt).media, ∃ raw, md = mkMedia raw) := by
  refine ⟨?_, ?_, ?_⟩
  · by_cases h : (optIsStr (getProp m ["media_type", "type"]) "video" ||
        optIsStr (getProp m ["media_type"]) "youtube") = true
    · constructor
      · intro _
        exact Bool.or_eq_true_iff.mp h
      · intro _
        simp [mkMedia, h]
    · have h' := eq_false_of_ne_true h
      constructor
      · intro hv
        exfalso
        have himg : (mkMedia m).media_type = "image" := by simp [mkMedia, h']
        rw [himg] at hv
        exact absurd hv (by decide)
      · intro hab
        exact absurd (Bool.or_eq_true_iff.mpr hab) h
  · by_cases h : (optIsStr (getProp m ["media_type", "type"]) "video" ||
        optIsStr (getProp m ["media_type"]) "youtube") = true
    · exact Or.inl (by simp [mkMedia, h])
    · exact Or.inr (by simp [mkMedia, eq_false_of_ne_true h])
  · intro md hmd
    rcases List.mem_filterMap.mp hmd with ⟨k, _, hfk⟩
    cases h : mapGet rd.mediaMap k with
    | none => rw [h] at hfk; cases hfk
    | some raw =>
      rw [h] at hfk
      have hfk' : (if truthy raw = true then some (mkMedia raw) else none) = some md := hfk
      by_cases ht : truthy raw = true
      · rw [if_pos ht] at hfk'
        exact ⟨raw, (Option.some.injEq _ _ ▸ hfk').symm⟩
      · rw [if_neg ht] at hfk'; cases hfk' 

/-- C6 witness: a record whose `media_type` field holds "youtube" is typed
"video". -/
theorem media_type_video_iff_witness :
    (mkMedia (.obj [("media_id", .str "m"), ("media_type", .str "youtube")])).media_type
      = "video" :=
  (media_type_video_iff env0 refDataEmpty (.obj [])
    (.obj [("media_id", .str "m"), ("media_type", .str "youtube")])).1.mpr (Or.inr rfl)

/-- Reference data whose media record says "youtube" only under the
alternate `type` field. -/
def youtubeViaTypeRd : RefData :=
  { mediaMap := [("m1", .obj [("media_id", .str "m1"), ("type", .str "youtube")])],
    eventMediaRelations := [.obj [("event_key", .str "e1"), ("media_key", .str "m1")]],
    personEventRelations := [], personMap := [], eventsCache := [],
    isLoaded := true, isLoading := false }

/-- C6 counterexample: the record's media-type value resolved through the
alternate field names is "youtube", yet hydration types it "image" — the
"youtube" test reads only the `media_type` field, not its alternates. -/
theorem media_type_youtube_via_alternate_counterexample :
    optIsStr (getProp (.obj [("media_id", .str "m1"), ("type", .str "youtube")])
      ["media_type", "type"]) "youtube" = true ∧
    ((hydrateOne env0 youtubeViaTypeRd simpleEvt).media.map (fun md => md.media_type))
      = ["image"] :=
  ⟨rfl, rfl⟩

/-! ### C2: supporting lemmas for the text normalizer -/

/-- Adjacent characters are not both whitespace. -/
def NoWsPair (a b : Char) : Prop := ¬(isWs a = true ∧ isWs b = true)

lemma citScan_length : ∀ (cs : List Char) (ok : Bool) (r : List Char),
    citScan cs ok = some r → r.length < cs.length := by
  intro cs
  induction cs with
  | nil => intro ok r h; cases h
  | cons c cs' ih =>
    intro ok r h
    simp only [citScan] at h
    by_cases h1 : c == ']'
    · rw [if_pos h1] at h
      by_cases h2 : ok = true
      · rw [if_pos h2] at h
        cases h
        simp
      · rw [if_neg h2] at h; cases h
    · rw [if_neg h1] at h
      by_cases h2 : c.isDigit = true
      · rw [if_pos h2] at h
        exact Nat.lt_trans (ih true r h) (by simp)
      · rw [if_neg h2] at h
        by_cases h3 : isSep c = true
        · rw [if_pos h3] at h
          exact Nat.lt_trans (ih _ r h) (by simp)
        · rw [if_neg h3] at h; cases h

lemma matchCitation_length : ∀ (l r : List Char),
    matchCitation l = some r → r.length < l.length := by
  intro l r h
  unfold matchCitation at h
  split at h
  · rename_i rest
    split at h
    · rename_i c cs heq
      split at h
      · have hlt := citScan_length _ _ _ h
        have hdw : (cs.dropWhile Char.isDigit).length ≤ cs.length :=
          (List.dropWhile_suffix Char.isDigit).sublist.length_le
        have hrest : (c :: cs).length ≤ rest.length := by
          rw [← heq]
          exact (List.dropWhile_suffix isWs).sublist.length_le
        simp only [List.length_cons] at hrest ⊢
        omega
      · cases h
    · cases h
  · cases h

/-- The fuel of `removeCitationsAux` is irrelevant once it reaches the
list's length, so the initial length is always enough (each step consumes
one unit of fuel and at least one character). -/
lemma removeCitationsAux_congr : ∀ (n : Nat) (l : List Char), l.length ≤ n →
    ∀ f g, l.length ≤ f → l.length ≤ g →
    removeCitationsAux f l = removeCitationsAux g l := by
  intro n
  induction n with
  | zero =>
    intro l hl f g _ _
    have : l = [] := List.length_eq_zero.mp (Nat.le_zero.mp hl)
    subst this
    cases f <;> cases g <;> rfl
  | succ n ih =>
    intro l hl f g hf hg
    cases l with
    | nil => cases f <;> cases g <;> rfl
    | cons c cs =>
      have hcs : cs.length + 1 = (c :: cs).length := by simp
      cases f with
      | zero => simp at hf
      | succ f' =>
        cases g with
        | zero => simp at hg
        | succ g' =>
          simp only [removeCitationsAux]
          cases hm : matchCitation (c :: cs) with
          | some rest =>
            have hlt := matchCitation_length _ _ hm
            have h1 : rest.length ≤ n := by simp at hl; omega
            have h2 : rest.length ≤ f' := by simp at hf; omega
            have h3 : rest.length ≤ g' := by simp at hg; omega
            exact ih rest h1 f' g' h2 h3
          | none =>
            have h1 : cs.length ≤ n := by simp at hl; omega
            have h2 : cs.length ≤ f' := by simp at hf; omega
            have h3 : cs.length ≤ g' := by simp at hg; omega
            rw [ih cs h1 f' g' h2 h3]

lemma removeCitationsAux_fuel (f : Nat) (l : List Char) (h : l.length ≤ f) :
    removeCitationsAux f l = removeCitations l :=
  removeCitationsAux_congr l.length l le_rfl f l.length h le_rfl

lemma collapseWsAux_true_head : ∀ (cs : List Char) (c : Char),
    (collapseWsAux true cs).head? = some c → isWs c = false := by
  intro cs
  induction cs with
  | nil => intro c h; cases h
  | cons d ds ih =>
    intro c h
    by_cases hd : isWs d = true
    · rw [show collapseWsAux true (d :: ds) = collapseWsAux true ds by
        simp [collapseWsAux, hd]] at h
      exact ih c h
    · rw [show collapseWsAux true (d :: ds) = d :: collapseWsAux false ds by
        simp [collapseWsAux, hd]] at h
      cases h
      exact eq_false_of_ne_true hd

lemma collapseWsAux_chain : ∀ (l : List Char) (b : Bool),
    List.Chain' NoWsPair (collapseWsAux b l) := by
  intro l
  induction l with
  | nil => intro b; exact List.chain'_nil
  | cons c cs ih =>
    intro b
    by_cases hc : isWs c = true
    · cases b with
      | true =>
        rw [show collapseWsAux true (c :: cs) = collapseWsAux true cs by
          simp [collapseWsAux, hc]]
        exact ih true
      | false =>
        rw [show collapseWsAux false (c :: cs) = ' ' :: collapseWsAux true cs by
          simp [collapseWsAux, hc]]
        refine List.chain'_cons'.mpr ⟨?_, ih true⟩
        intro y hy
        have := collapseWsAux_true_head cs y hy
        exact fun hpair => by rw [this] at hpair; exact Bool.false_ne_true hpair.2
    · rw [show collapseWsAux b (c :: cs) = c :: collapseWsAux false cs by
        simp [collapseWsAux, hc]]
      refine List.chain'_cons'.mpr ⟨?_, ih false⟩
      intro y _
      exact fun hpair => by rw [eq_false_of_ne_true hc] at hpair; exact Bool.false_ne_true hpair.1

lemma collapseWsAux_mem_sp : ∀ (l : List Char) (b : Bool) (c : Char),
    c ∈ collapseWsAux b l → isWs c = true → c = ' ' := by
  intro l
  induction l with
  | nil => intro b c h; cases h
  | cons d ds ih =>
    intro b c h hws
    by_cases hd : isWs d = true
    · cases b with
      | true =>
        rw [show collapseWsAux true (d :: ds) = collapseWsAux true ds by
          simp [collapseWsAux, hd]] at h
        exact ih true c h hws
      | false =>
        rw [show collapseWsAux false (d :: ds) = ' ' :: collapseWsAux true ds by
          simp [collapseWsAux, hd]] at h
        rcases List.mem_cons.mp h with rfl | h2
        · rfl
        · exact ih true c h2 hws
    · rw [show collapseWsAux b (d :: ds) = d :: collapseWsAux false ds by
        simp [collapseWsAux, hd]] at h
      rcases List.mem_cons.mp h with rfl | h2
      · rw [hws] at hd; exact absurd rfl hd
      · exact ih false c h2 hws

lemma collapseWsAux_fix : ∀ (l : List Char) (b : Bool),
    List.Chain' NoWsPair l → (∀ c ∈ l, isWs c = true → c = ' ') →
    (b = true → ∀ c, l.head? = some c → isWs c = false) →
    collapseWsAux b l = l := by
  intro l
  induction l with
  | nil => intro b _ _ _; rfl
  | cons c cs ih =>
    intro b hchain hmem hhead
    have hch := List.chain'_cons'.mp hchain
    by_cases hc : isWs c = true
    · cases b with
      | true =>
        have := hhead rfl c rfl
        rw [hc] at this
        exact absurd this (by simp)
      | false =>
        rw [show collapseWsAux false (c :: cs) = ' ' :: collapseWsAux true cs by
          simp [collapseWsAux, hc]]
        have hcsp : c = ' ' := hmem c (List.mem_cons_self c cs) hc
        have htail : collapseWsAux true cs = cs := by
          apply ih true hch.2 (fun x hx => hmem x (List.mem_cons_of_mem c hx))
          intro _ d hd
          by_contra hws
          have hws' : isWs d = true := by
            cases hdw : isWs d
            · exact absurd hdw hws
            · rfl
          exact hch.1 d hd ⟨hc, hws'⟩
        rw [htail, hcsp]
    · rw [show collapseWsAux b (c :: cs) = c :: collapseWsAux false cs by
        simp [collapseWsAux, hc]]
      rw [ih false hch.2 (fun x hx => hmem x (List.mem_cons_of_mem c hx)) (by intro h; cases h)]

lemma head?_dropWhile_not (p : Char → Bool) : ∀ (l : List Char) (c : Char),
    ((l.dropWhile p).head? = some c) → p c = false := by
  intro l
  induction l with
  | nil => intro c h; cases h
  | cons d ds ih =>
    intro c h
    by_cases hd : p d = true
    · rw [List.dropWhile_cons_of_pos hd] at h
      exact ih c h
    · rw [List.dropWhile_cons_of_neg hd] at h
      cases h
      exact eq_false_of_ne_true hd

lemma dropWhile_fix (p : Char → Bool) (l : List Char)
    (h : ∀ c, l.head? = some c → p c = false) : l.dropWhile p = l := by
  cases l with
  | nil => rfl
  | cons d ds =>
    have := h d rfl
    rw [List.dropWhile_cons_of_neg (by rw [this]; exact Bool.false_ne_true)]

lemma chain'_dropWhile {R : Char → Char → Prop} (p : Char → Bool) :
    ∀ (l : List Char), List.Chain' R l → List.Chain' R (l.dropWhile p) := by
  intro l
  induction l with
  | nil => intro h; exact h
  | cons d ds ih =>
    intro h
    by_cases hd : p d = true
    · rw [List.dropWhile_cons_of_pos hd]
      exact ih (List.chain'_cons'.mp h).2
    · rw [List.dropWhile_cons_of_neg hd]
      exact h

lemma mem_dropWhile (p : Char → Bool) (l : List Char) :
    ∀ c ∈ l.dropWhile p, c ∈ l :=
  fun _ hc => (List.dropWhile_suffix p).subset hc

lemma mem_dropTrailingWs : ∀ (l : List Char) (c : Char), c ∈ dropTrailingWs l → c ∈ l := by
  intro l
  induction l with
  | nil => intro c h; cases h
  | cons d ds ih =>
    intro c h
    simp only [dropTrailingWs] at h
    cases hds : dropTrailingWs ds with
    | nil =>
      rw [hds] at h
      by_cases hd : isWs d = true
      · rw [if_pos hd] at h; cases h
      · rw [if_neg hd] at h
        cases List.mem_singleton.mp h
        exact List.mem_cons_self d ds
    | cons e es =>
      rw [hds] at h
      rcases List.mem_cons.mp h with rfl | h2
      · exact List.mem_cons_self c ds
      · exact List.mem_cons_of_mem d (ih c (hds ▸ h2))

lemma head?_dropTrailingWs : ∀ (l : List Char) (c : Char),
    (dropTrailingWs l).head? = some c → l.head? = some c := by
  intro l c h
  cases l with
  | nil => cases h
  | cons d ds =>
    simp only [dropTrailingWs] at h
    cases hds : dropTrailingWs ds with
    | nil =>
      rw [hds] at h
      by_cases hd : isWs d = true
      · rw [if_pos hd] at h; cases h
      · rw [if_neg hd] at h
        cases h
        rfl
    | cons e es =>
      rw [hds] at h
      cases h
      rfl

lemma chain'_dropTrailingWs {R : Char → Char → Prop} :
    ∀ (l : List Char), List.Chain' R l → List.Chain' R (dropTrailingWs l) := by
  intro l
  induction l with
  | nil => intro h; exact h
  | cons d ds ih =>
    intro h
    have hch := List.chain'_cons'.mp h
    simp only [dropTrailingWs]
    cases hds : dropTrailingWs ds with
    | nil =>
      by_cases hd : isWs d = true
      · rw [if_pos hd]; exact List.chain'_nil
      · rw [if_neg hd]; exact List.chain'_singleton d
    | cons e es =>
      refine List.chain'_cons'.mpr ⟨?_, hds ▸ ih hch.2⟩
      intro y hy
      cases hy
      exact hch.1 e (head?_dropTrailingWs ds e (by rw [hds]; rfl))

lemma dropTrailingWs_cons_eq (d : Char) (l : List Char) :
    dropTrailingWs (d :: l) =
      (match dropTrailingWs l with
       | [] => if isWs d then [] else [d]
       | es => d :: es) := rfl

lemma dropTrailingWs_idem : ∀ (l : List Char),
    dropTrailingWs (dropTrailingWs l) = dropTrailingWs l := by
  intro l
  induction l with
  | nil => rfl
  | cons d ds ih =>
    cases hds : dropTrailingWs ds with
    | nil =>
      by_cases hd : isWs d = true
      · have e1 : dropTrailingWs (d :: ds) = [] := by
          rw [dropTrailingWs_cons_eq, hds]; rw [if_pos hd]
        rw [e1]; rfl
      · have e1 : dropTrailingWs (d :: ds) = [d] := by
          rw [dropTrailingWs_cons_eq, hds]; rw [if_neg hd]
        rw [e1]
        simp [dropTrailingWs, hd]
    | cons e es =>
      have ih' : dropTrailingWs (e :: es) = e :: es := by rw [← hds, ih]
      have e1 : dropTrailingWs (d :: ds) = d :: e :: es := by
        rw [dropTrailingWs_cons_eq, hds]
      rw [e1, dropTrailingWs_cons_eq, ih']

/-- After one collapse, a further collapse and trim are the identity on the
trimmed result. -/
lemma trimChars_collapse_invariants (x : List Char) :
    collapseWs (trimChars (collapseWs x)) = trimChars (collapseWs x) ∧
    trimChars (trimChars (collapseWs x)) = trimChars (collapseWs x) := by
  have hchain : List.Chain' NoWsPair (collapseWs x) := collapseWsAux_chain x false
  have hmem : ∀ c ∈ collapseWs x, isWs c = true → c = ' ' :=
    fun c hc => collapseWsAux_mem_sp x false c hc
  have hchain2 : List.Chain' NoWsPair (trimChars (collapseWs x)) :=
    chain'_dropTrailingWs _ (chain'_dropWhile isWs _ hchain)
  have hmem2 : ∀ c ∈ trimChars (collapseWs x), isWs c = true → c = ' ' := by
    intro c hc
    exact hmem c (mem_dropWhile isWs _ c (mem_dropTrailingWs _ c hc))
  constructor
  · exact collapseWsAux_fix _ false hchain2 hmem2 (by intro h; cases h)
  · show dropTrailingWs ((trimChars (collapseWs x)).dropWhile isWs) = trimChars (collapseWs x)
    have hhead : ∀ c, (trimChars (collapseWs x)).head? = some c → isWs c = false := by
      intro c hc
      exact head?_dropWhile_not isWs (collapseWs x) c (head?_dropTrailingWs _ c hc)
    rw [dropWhile_fix isWs _ hhead]
    exact dropTrailingWs_idem _

/-- C2 (amended): `cleanText` is idempotent on every string for which the
citation-stripping pass finds nothing further in the cleaned result (in
particular on all ordinary prose with well-formed citation markers); in
general a second application can strip a marker first revealed by the
removal of an inner one. -/
lemma cleanTextStr_of_ne (t : String) (h : (t == "") = false) :
    cleanTextStr t = String.mk (trimChars (collapseWs (removeCitations t.data))) := by
  unfold cleanTextStr
  simp [h]

/-- C2 (amended): `cleanText` is idempotent on every string for which the
citation-stripping pass finds nothing further in the cleaned result (in
particular on all ordinary prose with well-formed citation markers); in
general a second application can strip a marker first revealed by the
removal of an inner one. -/
theorem cleanText_idempotent_no_new_citations (s : String)
    (h : removeCitations (cleanTextStr s).data = (cleanTextStr s).data) :
    cleanTextStr (cleanTextStr s) = cleanTextStr s := by
  by_cases hs : s == ""
  · have h0 : cleanTextStr s = "" := by simp [cleanTextStr, hs]
    rw [h0]
    rfl
  · have hdef : cleanTextStr s
        = String.mk (trimChars (collapseWs (removeCitations s.data))) :=
      cleanTextStr_of_ne s (eq_false_of_ne_true hs)
    by_cases ht : cleanTextStr s == ""
    · have ht' : cleanTextStr s = "" := by simpa using ht
      rw [ht']
      rfl
    · have step := cleanTextStr_of_ne (cleanTextStr s) (eq_false_of_ne_true ht)
      have hdata : (cleanTextStr s).data
          = trimChars (collapseWs (removeCitations s.data)) := by
        rw [hdef]
      rw [step, h, hdata]
      have hinv := trimChars_collapse_invariants (removeCitations s.data)
      rw [hinv.1, hinv.2, ← hdata]

/-- C2 counterexample: on `"[1[2]]"` the first pass removes the inner
marker `[2]` and leaves `"[1]"`, which the second pass removes entirely —
so `cleanText` applied twice differs from `cleanText` applied once. -/
theorem cleanText_not_idempotent_counterexample :
    cleanTextStr "[1[2]]" = "[1]" ∧
    cleanTextStr (cleanTextStr "[1[2]]") = "" ∧
    cleanTextStr (cleanTextStr "[1[2]]") ≠ cleanTextStr "[1[2]]" :=
  ⟨rfl, rfl, by decide⟩

/-- C2 witness: the spec's own example, where the cleaned text contains no
further citation marker. -/
theorem cleanText_idempotent_no_new_citations_witness :
    cleanTextStr "Event [1, 2] happened [3]" = "Event happened" ∧
    cleanTextStr (cleanTextStr "Event [1, 2] happened [3]")
      = cleanTextStr "Event [1, 2] happened [3]" :=
  ⟨rfl, cleanText_idempotent_no_new_citations "Event [1, 2] happened [3]" rfl⟩
